import Mathlib

/-!
Shallow embedding of the ingestion-to-mapping pipeline of the
`footpath-map` repository:

* `parseCoordinates` — `src/twitterService.js`, `TwitterService.parseCoordinates`
* `geocode`          — `src/geocodingService.js`, `GeocodingService.geocode`
* `analyzeBatch`     — `src/aiAnalysisService.js`, `AiAnalysisService.analyzeBatch`
* `processQueue` / `finalizePost` — `src/issueProcessor.js`, `IssueProcessor`
* store operations   — `src/db.js` (`getPendingPosts`, `saveLocations`,
  `markPostAsProcessed`)

Texts are modelled as `List Char`; JavaScript numbers as `ℚ` (the decimal
literals involved are exact in `ℚ`; `NaN`/`null` are modelled as `none` in
`Option ℚ`, which matches their falsy behaviour in every branch the code
takes).  External effects (the Gemini call, the Nominatim request, the
Postgres queries) are supplied by oracles so that every function is a pure,
executable Lean definition.
-/

namespace FootpathMap

/-! ## JavaScript character and string primitives -/

/-- ASCII decimal digit test (`\d` in the source regexes). -/
def isDigitC (c : Char) : Bool := '0' ≤ c && c ≤ '9'

/-- The character class `[\d.]` used by every coordinate capture group. -/
def isDotDigit (c : Char) : Bool := isDigitC c || c = '.'

/-- JavaScript `\s` (restricted to the ASCII whitespace characters;
the texts handled by the pipeline contain no exotic Unicode spaces). -/
def jsIsSpace (c : Char) : Bool :=
  c = ' ' || c = '\t' || c = '\n' || c = '\r' || c = '\x0b' || c = '\x0c'

/-- JavaScript word character (`\w`), deciding `\b` boundaries. -/
def isWordChar (c : Char) : Bool :=
  ('a' ≤ c && c ≤ 'z') || ('A' ≤ c && c ≤ 'Z') || isDigitC c || c = '_'

/-- Case folding used by the `/i` regex flag and `String.toLowerCase`
(ASCII plus the Latin-1 uppercase range, which covers the mangled
degree-sign byte `Â` appearing in the source). -/
def jsToLower (c : Char) : Char :=
  if 'A' ≤ c && c ≤ 'Z' then Char.ofNat (c.toNat + 32)
  else if 'À' ≤ c && c ≤ 'Þ' && c ≠ '×' then Char.ofNat (c.toNat + 32)
  else c

/-- Case-insensitive character comparison. -/
def ciEq (a b : Char) : Bool := jsToLower a = jsToLower b

/-- `String.prototype.toLowerCase`. -/
def lcs (l : List Char) : List Char := l.map jsToLower

/-- Whether `pat` occurs as a contiguous substring of `l`
(JavaScript `String.prototype.includes`). -/
def containsSub (l pat : List Char) : Bool :=
  match l with
  | [] => pat.isEmpty
  | _ :: rest => pat.isPrefixOf l || containsSub rest pat

/-- JavaScript `String.prototype.trim`. -/
def jsTrim (l : List Char) : List Char :=
  ((l.dropWhile jsIsSpace).reverse.dropWhile jsIsSpace).reverse

/-- Numeric value of a digit string. -/
def digitsVal (l : List Char) : Nat :=
  l.foldl (fun acc c => acc * 10 + (c.toNat - 48)) 0

/-- JavaScript `parseFloat`, restricted to the digit-and-dot strings
produced by the coordinate capture groups (no sign, no exponent — the
`[\d.]+` captures cannot contain those).  `none` models `NaN`; reading
stops at a second dot, exactly as `parseFloat` does.  The value
`ip.fp = (ip·10^k + fp) / 10^k` is built with one `mkRat` so that it
evaluates by kernel reduction. -/
def parseFloatJS (l : List Char) : Option ℚ :=
  let l1 := l.dropWhile jsIsSpace
  let ip := l1.takeWhile isDigitC
  let rest := l1.drop ip.length
  match rest with
  | '.' :: r2 =>
    let fp := r2.takeWhile isDigitC
    if ip.isEmpty && fp.isEmpty then none
    else some (mkRat (Int.ofNat (digitsVal ip * 10 ^ fp.length + digitsVal fp)) (10 ^ fp.length))
  | _ => if ip.isEmpty then none else some (mkRat (Int.ofNat (digitsVal ip)) 1)

/-! ## Regex scaffolding for `parseCoordinates`

Each of the five patterns is hand-compiled.  Maximal-munch is used for
`[\d.]+`, `\s*` and `\d{4,}`; this is equivalent to the backtracking
semantics here because in each pattern the character class of a repeated
element is disjoint from the character that must follow it (giving back a
character can never let the continuation succeed). -/

/-- Skip `\s*`. -/
def skipSpaces (l : List Char) : List Char := l.dropWhile jsIsSpace

/-- `([\d.]+)` — maximal non-empty run, returning (capture, rest). -/
def takeNum (l : List Char) : Option (List Char × List Char) :=
  let g := l.takeWhile isDotDigit
  if g.isEmpty then none else some (g, l.drop g.length)

/-- Require a literal character. -/
def expectChar (c : Char) : List Char → Option (List Char)
  | x :: r => if x = c then some r else none
  | [] => none

/-- Require a literal string, case-insensitively (`/i` flag). -/
def expectStrCi : List Char → List Char → Option (List Char)
  | [], l => some l
  | p :: ps, x :: xs => if ciEq p x then expectStrCi ps xs else none
  | _ :: _, [] => none

/-- Require a literal string, case-sensitively. -/
def expectStr : List Char → List Char → Option (List Char)
  | [], l => some l
  | p :: ps, x :: xs => if p = x then expectStr ps xs else none
  | _ :: _, [] => none

/-- The shared suffix `([\d.]+)\s*,\s*([\d.]+)` of patterns 1, 2, 3 and 5;
returns the two capture groups. -/
def numPairAt (l : List Char) : Option (List Char × List Char) :=
  match takeNum l with
  | none => none
  | some (g1, r1) =>
    match expectChar ',' (skipSpaces r1) with
    | none => none
    | some r2 =>
      match takeNum (skipSpaces r2) with
      | none => none
      | some (g2, _) => some (g1, g2)

/-- Leftmost-match search: try `f` at every suffix, earliest first
(`String.prototype.match` without the `g` flag). -/
def searchA {α : Type} (f : List Char → Option α) : List Char → Option α
  | [] => f []
  | c :: rest =>
    match f (c :: rest) with
    | some x => some x
    | none => searchA f rest

/-- Pattern 1 `/Coords?:\s*([\d.]+)\s*,\s*([\d.]+)/i`, anchored at the
current position. -/
def coordPrefixAt (l : List Char) : Option (List Char × List Char) :=
  match expectStrCi (['c', 'o', 'o', 'r', 'd']) l with
  | none => none
  | some r =>
    let r1 := match r with
      | c :: t => if ciEq c 's' then t else r
      | [] => r
    match expectChar ':' r1 with
    | none => none
    | some r2 => numPairAt (skipSpaces r2)

/-- Pattern 2
`/(?:maps\.google\.com\/\?q=|google\.com\/maps\/place\/@|maps\.app\.goo\.gl\/|@)([\d.]+)\s*,\s*([\d.]+)/i`,
anchored; alternatives tried left to right, falling through when the
numeric tail fails. -/
def googleMapsAt (l : List Char) : Option (List Char × List Char) :=
  let try1 := match expectStrCi (("maps.google.com/?q=").data) l with
    | some r => numPairAt r
    | none => none
  match try1 with
  | some g => some g
  | none =>
    let try2 := match expectStrCi (("google.com/maps/place/@").data) l with
      | some r => numPairAt r
      | none => none
    match try2 with
    | some g => some g
    | none =>
      let try3 := match expectStrCi (("maps.app.goo.gl/").data) l with
        | some r => numPairAt r
        | none => none
      match try3 with
      | some g => some g
      | none =>
        match expectStrCi (['@']) l with
        | some r => numPairAt r
        | none => none

/-- The (mangled) degree marker `Â°` appearing literally in the source. -/
def degMark : List Char := ['Â', '°']

/-- Pattern 3 `/([\d.]+)Â°\s*[NS]?\s*,\s*([\d.]+)Â°\s*[EW]?/i`, anchored.
The trailing `\s*[EW]?` can never fail, so it is not represented. -/
def degreeAt (l : List Char) : Option (List Char × List Char) :=
  match takeNum l with
  | none => none
  | some (g1, r1) =>
    match expectStrCi degMark r1 with
    | none => none
    | some r2 =>
      let r3 := skipSpaces r2
      let r4 := match r3 with
        | c :: t => if ciEq c 'n' || ciEq c 's' then t else r3
        | [] => r3
      match expectChar ',' (skipSpaces r4) with
      | none => none
      | some r5 =>
        match takeNum (skipSpaces r5) with
        | none => none
        | some (g2, r6) =>
          match expectStrCi degMark r6 with
          | none => none
          | some _ => some (g1, g2)

/-- `\d{4,}` — maximal digit run of length at least 4. -/
def fourDigits (l : List Char) : Option (List Char × List Char) :=
  let d := l.takeWhile isDigitC
  if 4 ≤ d.length then some (d, l.drop d.length) else none

/-- `(1[2-3]\.\d{4,})` of pattern 4. -/
def latGroupP4 (l : List Char) : Option (List Char × List Char) :=
  match l with
  | '1' :: c2 :: '.' :: rest =>
    if c2 = '2' || c2 = '3' then
      match fourDigits rest with
      | some (d, r) => some ('1' :: c2 :: '.' :: d, r)
      | none => none
    else none
  | _ => none

/-- `(7[6-7]\.\d{4,})` of pattern 4. -/
def lonGroupP4 (l : List Char) : Option (List Char × List Char) :=
  match l with
  | '7' :: c2 :: '.' :: rest =>
    if c2 = '6' || c2 = '7' then
      match fourDigits rest with
      | some (d, r) => some ('7' :: c2 :: '.' :: d, r)
      | none => none
    else none
  | _ => none

/-- Pattern 4 `/\b(1[2-3]\.\d{4,})\s*,\s*(7[6-7]\.\d{4,})\b/`, anchored
(the leading `\b` is checked by the caller).  The trailing `\b` holds iff
the character after the maximal digit run is absent or not a word
character. -/
def plainAt (l : List Char) : Option (List Char × List Char) :=
  match latGroupP4 l with
  | none => none
  | some (g1, r1) =>
    match expectChar ',' (skipSpaces r1) with
    | none => none
    | some r2 =>
      match lonGroupP4 (skipSpaces r2) with
      | none => none
      | some (g2, r3) =>
        match r3 with
        | [] => some (g1, g2)
        | c :: _ => if isWordChar c then none else some (g1, g2)

/-- Leftmost search for pattern 4, tracking the previous character so the
leading `\b` can be decided. -/
def searchPlain : Option Char → List Char → Option (List Char × List Char)
  | _, [] => none
  | prev, c :: rest =>
    let boundary := match prev with
      | none => true
      | some p => !isWordChar p
    match (if boundary then plainAt (c :: rest) else none) with
    | some g => some g
    | none => searchPlain (some c) rest

/-- The three mangled bytes `ðŸ“` that stand for the pin emoji in the
source of pattern 5. -/
def pinMark : List Char := ['ð', 'Ÿ', '“']

/-- Pattern 5 `/ðŸ“\s*([\d.]+)\s*,\s*([\d.]+)/`, anchored. -/
def pinAt (l : List Char) : Option (List Char × List Char) :=
  match expectStr pinMark l with
  | some r => numPairAt (skipSpaces r)
  | none => none

/-! ## `parseCoordinates` (twitterService.js lines 63–126) -/

/-- JavaScript numeric truthiness for the `lat`/`lon` variables:
`null` and `NaN` are `none`, `0` is falsy. -/
def truthyQ : Option ℚ → Bool
  | none => false
  | some q => q != mkRat 0 1

/-- `0` default used only to read a value already known to be `some`. -/
def qget : Option ℚ → ℚ
  | none => mkRat 0 1
  | some q => q

/-- The fixed Bangalore bounding box shared by the parser (line 121) and
the geocoder (line 236): lat 12.7–13.3, lon 77.3–77.9. -/
def inBangaloreBox (la lo : ℚ) : Bool :=
  decide (mkRat 127 10 ≤ la) && decide (la ≤ mkRat 133 10) &&
  decide (mkRat 773 10 ≤ lo) && decide (lo ≤ mkRat 779 10)

/-- One step of the `if (!lat) { ... }` cascade: a later pattern is
consulted only when the current `lat` is falsy, and when it matches it
overwrites both variables. -/
def patternStep (cur : Option ℚ × Option ℚ)
    (m : Option (List Char × List Char)) : Option ℚ × Option ℚ :=
  if truthyQ cur.1 then cur
  else
    match m with
    | some (a, b) => (parseFloatJS a, parseFloatJS b)
    | none => cur

/-- Lines 64–117: the sequential five-pattern candidate selection. -/
def coordinateCandidates (text : List Char) : Option ℚ × Option ℚ :=
  let p : Option ℚ × Option ℚ :=
    match searchA coordPrefixAt text with
    | some (a, b) => (parseFloatJS a, parseFloatJS b)
    | none => (none, none)
  let p := patternStep p (searchA googleMapsAt text)
  let p := patternStep p (searchA degreeAt text)
  let p := patternStep p (searchPlain none text)
  let p := patternStep p (searchA pinAt text)
  p

/-- Lines 119–125: `if (lat && lon && lat >= 12.7 && ... ) return {lat, lon}`. -/
def validateBounds (p : Option ℚ × Option ℚ) : Option (ℚ × ℚ) :=
  if truthyQ p.1 && truthyQ p.2 && inBangaloreBox (qget p.1) (qget p.2)
  then some (qget p.1, qget p.2) else none

/-- `TwitterService.parseCoordinates`. -/
def parseCoordinates (text : List Char) : Option (ℚ × ℚ) :=
  validateBounds (coordinateCandidates text)


/-! ## `GeocodingService.geocode` (geocodingService.js lines 217–254)

The Nominatim HTTP exchange is an oracle `GeoOutcome`: either the request
(or the JSON parse of its body) fails — `err`, which the `catch` turns
into `null` — or it yields a parsed JSON array of rows.  `rateLimit()`
only delays; it does not affect the returned value and is not part of the
result.  The second component of the result records whether a network
request was issued. -/

/-- One row of the Nominatim JSON response: `lat`/`lon` are the raw
strings fed to `parseFloat`. -/
structure GeoRow where
  lat : List Char
  lon : List Char
  display_name : List Char
deriving DecidableEq

/-- Outcome of the HTTPS request issued by `makeRequest`. -/
inductive GeoOutcome where
  | err
  | ok (rows : List GeoRow)
deriving DecidableEq

/-- The value returned on geocoding success:
`{ lat, lon, displayName, source: 'geocoded' }`. -/
structure GeoResult where
  lat : ℚ
  lon : ℚ
  displayName : List Char
  source : List Char
deriving DecidableEq

/-- The string tag `'geocoded'`. -/
def geocodedTag : List Char := ("geocoded").data

/-- JavaScript truthiness of the `locationName` argument
(`null`/`undefined`/empty string are falsy). -/
def jsTruthyStr : Option (List Char) → Bool
  | none => false
  | some s => !s.isEmpty

/-- `GeocodingService.geocode`.  Returns the result together with a flag
recording whether a network request was issued. -/
def geocode (locationName : Option (List Char)) (net : GeoOutcome) :
    Option GeoResult × Bool :=
  if !jsTruthyStr locationName || (jsTrim (locationName.getD [])).isEmpty then
    (none, false)
  else
    match net with
    | .err => (none, true)
    | .ok [] => (none, true)
    | .ok (row :: _) =>
      match parseFloatJS row.lat, parseFloatJS row.lon with
      | some la, some lo =>
        if inBangaloreBox la lo then
          (some ⟨la, lo, row.display_name, geocodedTag⟩, true)
        else (none, true)
      | _, _ => (none, true)

/-! ## `AiAnalysisService` (aiAnalysisService.js)

The Gemini exchange of one attempt is an oracle `AiOutcome`:
* `ok arr` — the call succeeded and the JSON array was extracted and
  parsed into `arr` (lines 141–151);
* `parseFail` — the call succeeded but no parsable JSON array was found
  (the inner `catch`, lines 152–155);
* `err msg` — `generateContent` threw with message `msg` (the outer
  `catch`, lines 186–208).
`rateLimit()` only delays; its `lastCallTime` update is kept.  The
result records the number of network calls made and the list of retry
backoff delays (the `setTimeout` argument of line 202), in order. -/

/-- Mutable fields of an `AiAnalysisService` instance (constructor,
lines 5–24).  `minInterval` and `maxRetries` carry the constructor
constants but are ordinary fields of the state. -/
structure AiState where
  enabled : Bool
  lastCallTime : Nat
  minInterval : Nat
  maxRetries : Nat
  quotaExhausted : Bool
  quotaResetTime : Option Nat
deriving DecidableEq

/-- A freshly constructed, enabled service. -/
def initAiState : AiState := ⟨true, 0, 5000, 3, false, none⟩

/-- `isQuotaExhausted` (lines 29–41): returns the answer and the possibly
self-cleared state.  The JavaScript truthiness test
`this.quotaResetTime && Date.now() > this.quotaResetTime` is `t ≠ 0`
and `now > t`. -/
def isQuotaExhausted (s : AiState) (now : Nat) : Bool × AiState :=
  if !s.quotaExhausted then (false, s)
  else
    match s.quotaResetTime with
    | some t =>
      if t != 0 && now > t then
        (false, { s with quotaExhausted := false, quotaResetTime := none })
      else (true, s)
    | none => (true, s)

/-- `isDailyQuotaExhausted` (lines 72–76). -/
def isDailyQuotaExhausted (msg : List Char) : Bool :=
  containsSub msg (("limit: 0").data) ||
  containsSub msg (("PerDayPerProject").data) ||
  containsSub msg (("exceeded your current quota").data)

/-- The lazy gap `.*?` of `/retry.*?(\d+(?:\.\d+)?)\s*s/i` cannot cross a
line terminator (`.` does not match them without the `s` flag). -/
def isLineTerm (c : Char) : Bool := c = '\n' || c = '\r'

/-- Require a literal character, case-insensitively (`/i` flag). -/
def expectCharCi (c : Char) : List Char → Option (List Char)
  | x :: r => if ciEq x c then some r else none
  | [] => none

/-- Attempt `(\d+(?:\.\d+)?)\s*s` at the current position, the trailing
`s` case-insensitive (the `/i` flag covers the whole regex).  Maximal
munch for `\d+` and the optional fraction is equivalent to backtracking
here: a shorter digit run leaves a digit as the next character, which can
match neither `\.` nor `\s*s`. -/
def numThenSAt (l : List Char) : Option ℚ :=
  let d := l.takeWhile isDigitC
  if d.isEmpty then none
  else
    let r1 := l.drop d.length
    let withFrac : Option (List Char × List Char) :=
      match r1 with
      | '.' :: r2 =>
        let f := r2.takeWhile isDigitC
        if f.isEmpty then none else some (f, r2.drop f.length)
      | _ => none
    let (numVal, rest) : Option ℚ × List Char :=
      match withFrac with
      | some (f, r3) =>
        (some (mkRat (Int.ofNat (digitsVal d * 10 ^ f.length + digitsVal f)) (10 ^ f.length)), r3)
      | none => (some (mkRat (Int.ofNat (digitsVal d)) 1), r1)
    match expectCharCi 's' (skipSpaces rest) with
    | some _ => numVal
    | none =>
      match withFrac with
      | some _ =>
        match expectCharCi 's' (skipSpaces r1) with
        | some _ => some (mkRat (Int.ofNat (digitsVal d)) 1)
        | none => none
      | none => none

/-- Scan rightwards (the lazy `.*?`) for the first match of
`(\d+(?:\.\d+)?)\s*s`, stopping at a line terminator. -/
def findNumThenS : List Char → Option ℚ
  | [] => none
  | c :: rest =>
    if isLineTerm c then none
    else
      match numThenSAt (c :: rest) with
      | some q => some q
      | none => findNumThenS rest

/-- `Math.ceil` on an exact rational, computed with core integer
division so that it kernel-reduces: `ceil(n/d) = -fdiv(-n, d)`. -/
def jsCeilQ (q : ℚ) : Int := -((-q.num).fdiv (Int.ofNat q.den))

/-- `parseRetryDelay` (lines 60–67): the first `retry` occurrence that is
followed (on the same line) by a number-then-`s` yields
`Math.ceil(seconds·1000) + 1000`. -/
def parseRetryDelay : List Char → Option Nat
  | [] => none
  | c :: rest =>
    match
      (match expectStrCi (("retry").data) (c :: rest) with
       | some r => findNumThenS r
       | none => none) with
    | some q => some ((Int.toNat (jsCeilQ (mkRat (q.num * 1000) q.den))) + 1000)
    | none => parseRetryDelay rest

/-- A post as submitted to the classifier: `{id, text}`. -/
structure Tweet where
  id : List Char
  text : List Char
deriving DecidableEq

/-- One element of the JSON array returned by the model
(`{id, is_issue, issue_type, location, confidence}`). -/
structure RawAnalysis where
  id : List Char
  is_issue : Bool
  issue_type : Option (List Char)
  location : Option (List Char)
  confidence : ℚ
deriving DecidableEq

/-- The `aiAnalysis` object attached to each tweet by `analyzeBatch`.
A missing `skipped` key is the (falsy) `false`. -/
structure AiAnalysis where
  isIssue : Bool
  location : Option (List Char)
  issueType : Option (List Char)
  confidence : ℚ
  skipped : Bool
deriving DecidableEq

/-- `{ isIssue: false }` (lines 92 and 154 and 207). -/
def noIssueAnalysis : AiAnalysis := ⟨false, none, none, mkRat 0 1, false⟩

/-- `{ isIssue: false, skipped: true }` (lines 101 and 195). -/
def skippedAnalysis : AiAnalysis := ⟨false, none, none, mkRat 0 1, true⟩

/-- The location sanitization inlined in the result mapping of
`analyzeBatch` (lines 163–173), as one function of the raw `location`
(`none` = JSON `null`; the empty string is falsy and left untouched). -/
def sanitizeLocation (loc0 : Option (List Char)) : Option (List Char) :=
  if jsTruthyStr loc0 then
    let location := loc0.getD []
    let lower := lcs location
    if containsSub lower (("none").data) ||
       (containsSub lower (("bangalore").data) && location.length < 12) then
      if lcs (jsTrim location) = ("bangalore").data then none else some location
    else
      if !containsSub lower (("bangalore").data) &&
         !containsSub lower (("bengaluru").data) then
        some (location ++ (", Bangalore").data)
      else some location
  else loc0

/-- Lines 160–184: re-associate the parsed array with the input tweets by
id (default `{is_issue:false, location:null, confidence:0}`) and build the
`aiAnalysis` object. -/
def mapAnalysisBack (arr : List RawAnalysis) (t : Tweet) : AiAnalysis :=
  let analysis := (arr.find? (fun a => a.id == t.id)).getD
    ⟨t.id, false, none, none, mkRat 0 1⟩
  ⟨analysis.is_issue, sanitizeLocation analysis.location,
   analysis.issue_type, analysis.confidence, false⟩

/-- Outcome of one `generateContent` exchange, including the JSON-array
extraction of lines 141–155 (`parseFail` is the inner catch). -/
inductive AiOutcome where
  | ok (arr : List RawAnalysis)
  | parseFail
  | err (msg : List Char)
deriving DecidableEq

/-- Result of `analyzeBatch`: the final service state, the decorated
tweets, the number of network calls attempted, and the retry backoff
delays handed to `setTimeout` (line 202), in order. -/
structure BatchResult where
  state : AiState
  results : List (Tweet × AiAnalysis)
  netCalls : Nat
  waits : List Nat
deriving DecidableEq

/-- `analyzeBatch` (lines 90–209), with an explicit recursion fuel.  The
wrapper `analyzeBatch` supplies `fuel = maxRetries`, which makes the
fuel-exhaustion branch unreachable: the guarded recursion consumes one
fuel per `retryCount` increment and stops once
`retryCount < maxRetries` fails. -/
def analyzeBatchGo : Nat → AiState → Nat → List Tweet → (Nat → AiOutcome) →
    Nat → Nat → BatchResult
  | fuel, s, now, tweets, oracle, attemptIdx, retryCount =>
    if !s.enabled || tweets.isEmpty then
      ⟨s, tweets.map (fun t => (t, noIssueAnalysis)), 0, []⟩
    else
      let qr := isQuotaExhausted s now
      if qr.1 then
        ⟨qr.2, tweets.map (fun t => (t, skippedAnalysis)), 0, []⟩
      else
        let s2 := { qr.2 with lastCallTime := now }
        match oracle attemptIdx with
        | .ok arr =>
          ⟨s2, tweets.map (fun t => (t, mapAnalysisBack arr t)), 1, []⟩
        | .parseFail =>
          ⟨s2, tweets.map (fun t => (t, noIssueAnalysis)), 1, []⟩
        | .err msg =>
          if isDailyQuotaExhausted msg then
            ⟨{ s2 with quotaExhausted := true,
                       quotaResetTime := some (now + 60 * 60 * 1000) },
             tweets.map (fun t => (t, skippedAnalysis)), 1, []⟩
          else if (containsSub msg (("429").data) ||
                   containsSub msg (("quota").data)) &&
                  retryCount < s2.maxRetries then
            match fuel with
            | 0 => ⟨s2, tweets.map (fun t => (t, noIssueAnalysis)), 1, []⟩
            | fuel' + 1 =>
              let retryDelay := (parseRetryDelay msg).getD ((retryCount + 1) * 10000)
              let r := analyzeBatchGo fuel' s2 now tweets oracle (attemptIdx + 1)
                (retryCount + 1)
              ⟨r.state, r.results, r.netCalls + 1, retryDelay :: r.waits⟩
          else
            ⟨s2, tweets.map (fun t => (t, noIssueAnalysis)), 1, []⟩

/-- `analyzeBatch(tweets)` — the external entry point
(`retryCount = 0`). -/
def analyzeBatch (s : AiState) (now : Nat) (tweets : List Tweet)
    (oracle : Nat → AiOutcome) : BatchResult :=
  analyzeBatchGo s.maxRetries s now tweets oracle 0 0

/-- The status object of `getStatus` (lines 214–223). -/
structure AiStatus where
  enabled : Bool
  quotaExhausted : Bool
  quotaResetTime : Option Nat
  minutesUntilReset : Option Int
deriving DecidableEq

/-- `getStatus`: `minutesUntilReset = max 0 (ceil((t - now)/60000))` when
`quotaResetTime` is truthy, else `null`. -/
def getStatus (s : AiState) (now : Nat) : AiStatus :=
  ⟨s.enabled, s.quotaExhausted, s.quotaResetTime,
   match s.quotaResetTime with
   | some t =>
     if t != 0 then
       some (max 0 (jsCeilQ (mkRat ((t : Int) - (now : Int)) 60000)))
     else none
   | none => none⟩

/-! ## Store (db.js) and `IssueProcessor` (issueProcessor.js)

The Postgres pool is modelled as an in-memory store.  Each store
operation consults a failure oracle `dbFail`, indexed by the number of
store operations issued so far in the cycle; a `true` entry makes the
operation throw (leaving the store unchanged — `saveLocations` wraps its
inserts in BEGIN/COMMIT/ROLLBACK, and the single `UPDATE` of
`markPostAsProcessed` cannot partially apply). -/

/-- `processing_status` values used by the pipeline. -/
inductive PStatus where
  | pending
  | processed_no_issue
  | processed_mapped
deriving DecidableEq

/-- A row of the `posts` table (the fields the pipeline reads). -/
structure StorePost where
  id : List Char
  text : List Char
  createdAt : Nat
  processing_status : PStatus
deriving DecidableEq

/-- A row of the `locations` table. -/
structure LocRow where
  post_id : List Char
  coordinates : GeoResult
  extracted_location : Option (List Char)
deriving DecidableEq

/-- The persistent state. -/
structure StoreState where
  posts : List StorePost
  locations : List LocRow
deriving DecidableEq

/-- `UPDATE posts SET processing_status = st WHERE id = pid`. -/
def setStatus : List StorePost → List Char → PStatus → List StorePost
  | [], _, _ => []
  | p :: rest, pid, st =>
    (if p.id = pid then { p with processing_status := st } else p) ::
      setStatus rest pid st

/-- Status of a post, `none` when no such row exists. -/
def statusOfP (posts : List StorePost) (pid : List Char) : Option PStatus :=
  match posts.find? (fun p => p.id == pid) with
  | some p => some p.processing_status
  | none => none

/-- `INSERT ... ON CONFLICT (post_id) DO UPDATE` of
`saveLocationInternal`. -/
def upsertLoc (locs : List LocRow) (row : LocRow) : List LocRow :=
  if locs.any (fun r => r.post_id == row.post_id) then
    locs.map (fun r => if r.post_id == row.post_id then row else r)
  else locs ++ [row]

/-- The stored location of a post, if any. -/
def locOfP (locs : List LocRow) (pid : List Char) : Option LocRow :=
  locs.find? (fun r => r.post_id == pid)

/-- Insertion sort by `createdAt` ascending (`ORDER BY created_at ASC`). -/
def insertByCreated (p : StorePost) : List StorePost → List StorePost
  | [] => [p]
  | q :: rest =>
    if p.createdAt ≤ q.createdAt then p :: q :: rest
    else q :: insertByCreated p rest

/-- Sort a post list by `createdAt` ascending. -/
def sortByCreated : List StorePost → List StorePost
  | [] => []
  | p :: rest => insertByCreated p (sortByCreated rest)

/-- `db.getPendingPosts(limit)`: pending posts, oldest first, at most
`limit`, formatted to the `{id, text}` shape the classifier consumes. -/
def getPendingPosts (st : StoreState) (limit : Nat) : List Tweet :=
  ((sortByCreated (st.posts.filter
      (fun p => p.processing_status == PStatus.pending))).take limit).map
    (fun p => ⟨p.id, p.text⟩)

/-- Store operations recorded by a processing cycle. -/
inductive StoreEv where
  | read
  | writeLoc
  | writeStatus
deriving DecidableEq

/-- The external-world oracles of one `processQueue` cycle. -/
structure Env where
  dbFail : Nat → Bool
  aiOutcome : Nat → AiOutcome
  geoNet : Nat → GeoOutcome

/-- Result of `finalizePost`: the store, the next store-operation and
geocode-invocation indices, the accumulated store-event trace, whether a
store call threw, and the `{ mapped }` return value. -/
structure FinRes where
  store : StoreState
  dbIdx : Nat
  geoIdx : Nat
  evs : List StoreEv
  threw : Bool
  mapped : Bool
deriving DecidableEq

/-- `IssueProcessor.finalizePost` (issueProcessor.js lines 80–113).
Store failures propagate to the caller (`threw = true`); `geocode` never
throws.  The 1.1 s throttle of line 103 only delays and is not part of
the result. -/
def finalizePost (env : Env) (st : StoreState) (dbIdx geoIdx : Nat)
    (evs : List StoreEv) (post : Tweet × AiAnalysis) : FinRes :=
  let analysis := post.2
  if analysis.isIssue && jsTruthyStr analysis.location then
    let coords := (geocode analysis.location (env.geoNet geoIdx)).1
    match coords with
    | some c =>
      -- db.saveLocations([...]) — transactional, one store operation
      if env.dbFail dbIdx then
        ⟨st, dbIdx + 1, geoIdx + 1, evs ++ [.writeLoc], true, false⟩
      else
        let st1 : StoreState :=
          ⟨st.posts, upsertLoc st.locations ⟨post.1.id, c, analysis.location⟩⟩
        -- db.markPostAsProcessed(post.id, 'processed_mapped')
        if env.dbFail (dbIdx + 1) then
          ⟨st1, dbIdx + 2, geoIdx + 1, evs ++ [.writeLoc, .writeStatus], true, false⟩
        else
          ⟨⟨setStatus st1.posts post.1.id .processed_mapped, st1.locations⟩,
           dbIdx + 2, geoIdx + 1, evs ++ [.writeLoc, .writeStatus], false, true⟩
    | none =>
      -- geocoding miss: no Location row; mark 'processed_no_issue'
      if env.dbFail dbIdx then
        ⟨st, dbIdx + 1, geoIdx + 1, evs ++ [.writeStatus], true, false⟩
      else
        ⟨⟨setStatus st.posts post.1.id .processed_no_issue, st.locations⟩,
         dbIdx + 1, geoIdx + 1, evs ++ [.writeStatus], false, false⟩
  else
    -- not an issue or no location: mark 'processed_no_issue'
    if env.dbFail dbIdx then
      ⟨st, dbIdx + 1, geoIdx, evs ++ [.writeStatus], true, false⟩
    else
      ⟨⟨setStatus st.posts post.1.id .processed_no_issue, st.locations⟩,
       dbIdx + 1, geoIdx, evs ++ [.writeStatus], false, false⟩

/-- Result of the sequential finalization loop (lines 59–63). -/
structure LoopRes where
  store : StoreState
  dbIdx : Nat
  geoIdx : Nat
  evs : List StoreEv
  processed : Nat
  mapped : Nat
  threw : Bool
deriving DecidableEq

/-- The `for (const post of analyzedPosts)` loop: sequential, stopping at
the first thrown store error. -/
def runFinalize (env : Env) : StoreState → Nat → Nat → List StoreEv →
    List (Tweet × AiAnalysis) → Nat → Nat → LoopRes
  | st, d, g, evs, [], pc, mc => ⟨st, d, g, evs, pc, mc, false⟩
  | st, d, g, evs, post :: rest, pc, mc =>
    let r := finalizePost env st d g evs post
    if r.threw then ⟨r.store, r.dbIdx, r.geoIdx, r.evs, pc, mc, true⟩
    else runFinalize env r.store r.dbIdx r.geoIdx r.evs rest (pc + 1)
      (mc + if r.mapped then 1 else 0)

/-- In-memory fields of an `IssueProcessor` instance. -/
structure ProcState where
  aiState : AiState
  isProcessing : Bool
  lastProcessedCount : Nat
  lastCycleTime : Option Nat
deriving DecidableEq

/-- The value returned by `processQueue` (`minutesUntilReset` is present
only on the quota-guard path). -/
structure PQResult where
  skipped : Bool
  reason : Option (List Char)
  processed : Option Nat
  mapped : Option Nat
  minutesUntilReset : Option Int
deriving DecidableEq

/-- Result of one `processQueue` call. -/
structure PQOut where
  pstate : ProcState
  store : StoreState
  evs : List StoreEv
  res : PQResult
deriving DecidableEq

/-- `{skipped: true, reason}`. -/
def mkSkipRes (reason : List Char) (minutes : Option Int) : PQResult :=
  ⟨true, some reason, none, none, minutes⟩

/-- `{skipped: false, processed, mapped}` with an optional `reason`. -/
def mkDoneRes (processed mapped : Nat) (reason : Option (List Char)) : PQResult :=
  ⟨false, reason, some processed, some mapped, none⟩

/-- `analyzedPosts[0]?.aiAnalysis?.skipped` (line 52). -/
def firstSkipped : List (Tweet × AiAnalysis) → Bool
  | [] => false
  | r :: _ => r.2.skipped

/-- `IssueProcessor.processQueue` (lines 17–75).  Store operation 0 is
the `getPendingPosts` read; any store exception is caught by the
top-level `try/catch`, and the `finally` clears `isProcessing`. -/
def processQueue (env : Env) (p : ProcState) (store : StoreState)
    (now : Nat) : PQOut :=
  if p.isProcessing then
    ⟨p, store, [], mkSkipRes (("already_processing").data) none⟩
  else
    let qr := isQuotaExhausted p.aiState now
    if qr.1 then
      ⟨{ p with aiState := qr.2 }, store, [],
       mkSkipRes (("quota_exhausted").data) (getStatus qr.2 now).minutesUntilReset⟩
    else
      -- this.isProcessing = true; this.lastCycleTime = new Date()
      if env.dbFail 0 then
        -- getPendingPosts threw; caught, finally resets the flag
        ⟨⟨qr.2, false, p.lastProcessedCount, some now⟩, store, [.read],
         mkDoneRes 0 0 none⟩
      else
        let pending := getPendingPosts store 10
        if pending.isEmpty then
          ⟨⟨qr.2, false, p.lastProcessedCount, some now⟩, store, [.read],
           mkDoneRes 0 0 (some (("no_pending").data))⟩
        else
          let batch := analyzeBatch qr.2 now pending env.aiOutcome
          if firstSkipped batch.results then
            ⟨⟨batch.state, false, p.lastProcessedCount, some now⟩, store, [.read],
             mkSkipRes (("quota_exhausted_mid_cycle").data) none⟩
          else
            let lr := runFinalize env store 1 0 ([.read]) batch.results 0 0
            if lr.threw then
              ⟨⟨batch.state, false, p.lastProcessedCount, some now⟩, lr.store,
               lr.evs, mkDoneRes lr.processed lr.mapped none⟩
            else
              ⟨⟨batch.state, false, lr.processed, some now⟩, lr.store,
               lr.evs, mkDoneRes lr.processed lr.mapped none⟩
/-! ## Shared lemmas about the store operations -/

/-- `setStatus` changes exactly the named post, giving it exactly the
named status. -/
theorem setStatus_statusOfP (posts : List StorePost) (pid : List Char)
    (st : PStatus) (p : List Char) :
    statusOfP (setStatus posts pid st) p =
      if p = pid then (statusOfP posts p).map (fun _ => st)
      else statusOfP posts p := by
  induction posts with
  | nil =>
    simp [setStatus, statusOfP, List.find?]
  | cons q rest ih =>
    have hid : ((if q.id = pid then { q with processing_status := st } else q) :
        StorePost).id = q.id := by
      split <;> rfl
    by_cases hq : q.id = p
    · have h1 : (q.id == p) = true := by simp [hq]
      have h2 : (((if q.id = pid then { q with processing_status := st } else q) :
          StorePost).id == p) = true := by rw [hid]; exact h1
      simp only [setStatus, statusOfP, List.find?, h1, h2]
      by_cases hp : p = pid
      · have h3 : q.id = pid := by rw [hq]; exact hp
        simp [h3, hp]
      · have h3 : ¬ q.id = pid := by rw [hq]; exact hp
        simp [h3, hp]
    · have h1 : (q.id == p) = false := beq_eq_false_iff_ne.mpr hq
      have h2 : (((if q.id = pid then { q with processing_status := st } else q) :
          StorePost).id == p) = false := by rw [hid]; exact h1
      simp only [setStatus, statusOfP, List.find?, h1, h2]
      have h4 := ih
      simp only [statusOfP] at h4
      exact h4

/-- Auxiliary: the conflict-update path of `upsertLoc` makes the row
retrievable. -/
theorem upsertLoc_find_map (locs : List LocRow) (row : LocRow)
    (hany : (locs.any fun r => r.post_id == row.post_id) = true) :
    locOfP (locs.map (fun r => if r.post_id == row.post_id then row else r))
      row.post_id = some row := by
  induction locs with
  | nil => simp at hany
  | cons r rest ih =>
    by_cases h : r.post_id = row.post_id
    · simp [locOfP, List.find?, h]
    · have h1 : (r.post_id == row.post_id) = false := beq_eq_false_iff_ne.mpr h
      simp only [List.any_cons, h1, Bool.false_or] at hany
      simp only [List.map_cons, locOfP, List.find?, h1, Bool.false_eq_true,
        if_false]
      simpa [locOfP] using ih hany

/-- Auxiliary: the insert path of `upsertLoc` makes the row
retrievable. -/
theorem upsertLoc_find_append (locs : List LocRow) (row : LocRow)
    (hany : (locs.any fun r => r.post_id == row.post_id) = false) :
    locOfP (locs ++ [row]) row.post_id = some row := by
  induction locs with
  | nil => simp [locOfP, List.find?]
  | cons r rest ih =>
    simp only [List.any_cons, Bool.or_eq_false_iff] at hany
    obtain ⟨h1, h2⟩ := hany
    simp only [List.cons_append, locOfP, List.find?, h1]
    simpa [locOfP] using ih h2

/-- After `upsertLoc locs row`, looking up `row.post_id` yields `row`. -/
theorem upsertLoc_locOfP (locs : List LocRow) (row : LocRow) :
    locOfP (upsertLoc locs row) row.post_id = some row := by
  unfold upsertLoc
  split
  · exact upsertLoc_find_map locs row (by assumption)
  · rename_i hany
    exact upsertLoc_find_append locs row (by simpa using hany)

/-- Every row of `upsertLoc locs row` is `row` or an original row. -/
theorem upsertLoc_mem (locs : List LocRow) (row r : LocRow)
    (h : r ∈ upsertLoc locs row) : r = row ∨ r ∈ locs := by
  unfold upsertLoc at h
  split at h
  · rw [List.mem_map] at h
    obtain ⟨a, ha, hfa⟩ := h
    by_cases hc : (a.post_id == row.post_id) = true
    · rw [if_pos hc] at hfa
      left; exact hfa.symm
    · rw [if_neg hc] at hfa
      right; rw [← hfa]; exact ha
  · rw [List.mem_append] at h
    rcases h with h | h
    · right; exact h
    · left; simpa using h

/-! ## Claim C1 — location sanitization in `analyzeBatch` -/

/-- Claim C1 (code_bug evidence).  The spec says the literal token for
`none` is treated as no location (null).  The code (aiAnalysisService.js
lines 163–173) guards the `location = null` assignment with
`location.trim().toLowerCase() === 'bangalore'`, which cannot hold inside
the `includes('none')` branch, so a location string `none` survives
sanitization unchanged — truthy, and handed to the geocoder — and a
string merely containing `none` (here `Nonexistent Rd`) also skips the
`, Bangalore` qualifier the claim promises.  The empty string likewise
stays the empty string instead of becoming null. -/
theorem c1_sanitize_keeps_none_location :
    (analyzeBatch initAiState 5 ([⟨("t1").data, ("footpath broken").data⟩])
      (fun _ => AiOutcome.ok
        [⟨("t1").data, true, some (("pothole").data), some (("none").data),
          mkRat 9 10⟩])).results =
      [(⟨("t1").data, ("footpath broken").data⟩,
        ⟨true, some (("none").data), some (("pothole").data), mkRat 9 10,
         false⟩)] ∧
    sanitizeLocation (some (("none").data)) = some (("none").data) ∧
    sanitizeLocation (some (("Nonexistent Rd").data)) =
      some (("Nonexistent Rd").data) ∧
    sanitizeLocation (some []) = some [] := by
  refine ⟨?_, ?_, ?_, ?_⟩ <;> decide

/-! ## Claim C2 — bounding-box validation in `parseCoordinates` -/

/-- Helper for C2: a non-null parse result always lies inside the
Bangalore bounding box. -/
theorem validateBounds_box (p : Option ℚ × Option ℚ) (la lo : ℚ)
    (h : validateBounds p = some (la, lo)) : inBangaloreBox la lo = true := by
  unfold validateBounds at h
  split at h
  · rename_i hc
    simp only [Option.some.injEq, Prod.mk.injEq] at h
    obtain ⟨h1, h2⟩ := h
    subst h1
    subst h2
    simp only [Bool.and_eq_true] at hc
    exact hc.2
  · simp at h

/-- Helper for C2: once pattern 1 produces a truthy latitude, the later
patterns are never consulted; if that candidate fails the bounding-box
check the whole parse is null. -/
theorem parseCoordinates_p1_priority (text : List Char) (a b : List Char)
    (h1 : searchA coordPrefixAt text = some (a, b))
    (h2 : truthyQ (parseFloatJS a) = true)
    (h3 : inBangaloreBox (qget (parseFloatJS a)) (qget (parseFloatJS b)) = false) :
    parseCoordinates text = none := by
  unfold parseCoordinates coordinateCandidates
  simp only [h1, patternStep, h2, if_true]
  unfold validateBounds
  simp only [h2, h3, Bool.and_false, Bool.true_and, Bool.false_eq_true, if_false]

/-- Concrete input for C2: pattern 1 matches an out-of-box pair while
pattern 4 would match an in-box pair later in the text. -/
def c2Text : List Char := ("Coord: 20.5, 77.5 near 12.9500, 77.6000").data

/-- Claim C2 (counterexample).  The claim says an out-of-box candidate
makes the parser fall through to the next pattern, returning null only
when all five patterns fail to yield an in-box pair.  On `c2Text`,
pattern 4 yields the in-box pair (12.95, 77.60), yet `parseCoordinates`
returns null because the out-of-box pattern-1 candidate (20.5, 77.5)
suppresses all later patterns. -/
theorem c2_fallthrough_counterexample :
    parseCoordinates c2Text = none ∧
    searchPlain none c2Text = some ((("12.9500").data), (("77.6000").data)) ∧
    parseFloatJS (("12.9500").data) = some (mkRat 1295 100) ∧
    parseFloatJS (("77.6000").data) = some (mkRat 776 10) ∧
    inBangaloreBox (mkRat 1295 100) (mkRat 776 10) = true := by
  refine ⟨?_, ?_, ?_, ?_, ?_⟩ <;> decide

/-- Claim C2 (amended).  Only the first pattern to produce a truthy
latitude supplies the candidate, and the single bounding-box validation
runs at the end: every non-null result of `parseCoordinates` is inside
the box, and when pattern 1 matches with a truthy latitude whose pair is
out of box, the parser returns null without consulting the later
patterns. -/
theorem c2_first_match_validated :
    (∀ text la lo, parseCoordinates text = some (la, lo) →
      inBangaloreBox la lo = true) ∧
    (∀ text a b, searchA coordPrefixAt text = some (a, b) →
      truthyQ (parseFloatJS a) = true →
      inBangaloreBox (qget (parseFloatJS a)) (qget (parseFloatJS b)) = false →
      parseCoordinates text = none) :=
  ⟨fun _ la lo h => validateBounds_box _ la lo h,
   fun text a b h1 h2 h3 => parseCoordinates_p1_priority text a b h1 h2 h3⟩

/-- Witness for C2: both conjuncts applied at concrete inputs. -/
theorem c2_first_match_validated_witness :
    inBangaloreBox (mkRat 1295 100) (mkRat 776 10) = true ∧
    parseCoordinates c2Text = none := by
  constructor
  · exact c2_first_match_validated.1 (("Coord: 12.95, 77.60").data)
      (mkRat 1295 100) (mkRat 776 10) (by decide)
  · exact c2_first_match_validated.2 c2Text (("20.5").data) (("77.5").data)
      (by decide) (by decide) (by decide)
/-! ## Claim C3 — Location row vs. status transition atomicity -/

/-- The Post/Location invariant of the spec: no Location row for a post
whose `processing_status` is still pending. -/
def GoodStore (s : StoreState) : Prop :=
  ∀ r ∈ s.locations, statusOfP s.posts r.post_id ≠ some PStatus.pending

/-- Helper for C3: marking a post with a non-pending status preserves the
invariant. -/
theorem goodStore_mark (posts : List StorePost) (locs : List LocRow)
    (pid : List Char) (st : PStatus) (hst : st ≠ PStatus.pending)
    (hgood : GoodStore ⟨posts, locs⟩) :
    GoodStore ⟨setStatus posts pid st, locs⟩ := by
  intro r hr
  simp only
  rw [setStatus_statusOfP]
  split
  · cases h : statusOfP posts r.post_id <;> simp [hst]
  · exact hgood r hr

/-- Helper for C3: upserting a Location row and then marking its post
with a non-pending status preserves the invariant. -/
theorem goodStore_save_mark (posts : List StorePost) (locs : List LocRow)
    (row : LocRow) (st : PStatus) (hst : st ≠ PStatus.pending)
    (hgood : GoodStore ⟨posts, locs⟩) :
    GoodStore ⟨setStatus posts row.post_id st, upsertLoc locs row⟩ := by
  intro r hr
  simp only at hr ⊢
  rw [setStatus_statusOfP]
  split
  · cases h : statusOfP posts r.post_id <;> simp [hst]
  · rename_i hne
    rcases upsertLoc_mem locs row r hr with h | h
    · exact absurd (by rw [h]) hne
    · exact hgood r h

/-- Helper for C3: `finalizePost` preserves the invariant when no store
write fails. -/
theorem goodStore_finalizePost (env : Env) (st : StoreState)
    (dbIdx geoIdx : Nat) (evs : List StoreEv) (post : Tweet × AiAnalysis)
    (hfail : ∀ n, env.dbFail n = false)
    (hgood : GoodStore st) :
    GoodStore (finalizePost env st dbIdx geoIdx evs post).store := by
  obtain ⟨posts, locs⟩ := st
  unfold finalizePost
  dsimp only
  repeat' split
  all_goals dsimp only
  all_goals
    first
      | exact hgood
      | exact goodStore_mark posts locs _ _ (by simp) hgood
      | exact goodStore_save_mark posts locs _ _ (by simp) hgood
      | simp_all [hfail]

/-- Helper for C3: the finalization loop preserves the invariant when no
store write fails. -/
theorem goodStore_runFinalize (env : Env)
    (posts : List (Tweet × AiAnalysis)) (hfail : ∀ n, env.dbFail n = false) :
    ∀ st d g evs pc mc, GoodStore st →
      GoodStore (runFinalize env st d g evs posts pc mc).store := by
  induction posts with
  | nil => intro st d g evs pc mc h; exact h
  | cons post rest ih =>
    intro st d g evs pc mc h
    simp only [runFinalize]
    split
    · exact goodStore_finalizePost env st d g evs post hfail h
    · exact ih _ _ _ _ _ _ (goodStore_finalizePost env st d g evs post hfail h)

/-- Claim C3 (amended).  The Location write and the status transition are
not one atomic unit — when the status update can fail after the Location
save, an orphan row is reachable (see the counterexample).  What does
hold: in every execution in which all store writes succeed, a cycle
started on a store without orphan Location rows ends on a store without
orphan Location rows. -/
theorem c3_no_orphan_when_writes_succeed (env : Env) (p : ProcState)
    (store : StoreState) (now : Nat) (hfail : ∀ n, env.dbFail n = false)
    (hgood : GoodStore store) :
    GoodStore (processQueue env p store now).store := by
  unfold processQueue
  dsimp only
  repeat' split
  all_goals dsimp only
  all_goals
    first
      | exact hgood
      | exact goodStore_runFinalize env _ hfail _ _ _ _ _ _ hgood

/-- Concrete pending post for the C3 scenario. -/
def c3Post : StorePost :=
  ⟨("p1").data, ("bad footpath near MG Road").data, 0, PStatus.pending⟩

/-- Store holding only the pending post. -/
def c3Store : StoreState := ⟨[c3Post], []⟩

/-- Oracles for the C3 counterexample: store operation 2 (the status
update after the successful Location save) throws; the classifier finds
an issue at MG Road; the geocoder resolves it inside the box. -/
def c3Env : Env :=
  ⟨fun n => n == 2,
   fun _ => AiOutcome.ok
     [⟨("p1").data, true, some (("pothole").data), some (("MG Road").data),
       mkRat 9 10⟩],
   fun _ => GeoOutcome.ok
     [⟨("12.9716").data, ("77.5946").data, ("MG Road, Bengaluru").data⟩]⟩

/-- Same oracles with no store failures, for the witness. -/
def c3EnvOk : Env := ⟨fun _ => false, c3Env.aiOutcome, c3Env.geoNet⟩

/-- An idle processor with a fresh AI service. -/
def c3Proc : ProcState := ⟨initAiState, false, 0, none⟩

/-- Claim C3 (counterexample).  When the status update throws right
after the Location save committed, the cycle ends with a Location row
for post `p1` while `p1` is still pending — the reachable state the
claim rules out. -/
theorem c3_orphan_location_counterexample :
    (locOfP (processQueue c3Env c3Proc c3Store 5).store.locations
      (("p1").data)).isSome = true ∧
    statusOfP (processQueue c3Env c3Proc c3Store 5).store.posts
      (("p1").data) = some PStatus.pending := by
  refine ⟨?_, ?_⟩ <;> decide

/-- Witness for C3: the amended theorem applied to the failure-free run
of the same scenario. -/
theorem c3_no_orphan_witness :
    GoodStore (processQueue c3EnvOk c3Proc c3Store 5).store :=
  c3_no_orphan_when_writes_succeed c3EnvOk c3Proc c3Store 5 (fun _ => rfl)
    (by intro r hr; cases hr)
/-! ## Claim C4 — quota exhaustion guard and self-clearing reset -/

/-- Claim C4.  While the quota-exhausted flag is set and the reset
timestamp has not passed, `analyzeBatch` returns every post tagged
`skipped`, attempts no network call and leaves the state untouched; once
the reset timestamp has passed, the next `isQuotaExhausted` check clears
the flag and a subsequent `analyzeBatch` call attempts the network
again. -/
theorem c4_quota_guard_and_reset (s : AiState) (now : Nat)
    (tweets : List Tweet) (oracle : Nat → AiOutcome) (t : Nat)
    (hen : s.enabled = true) (hq : s.quotaExhausted = true)
    (hrt : s.quotaResetTime = some t) (ht0 : t ≠ 0) (hnow : now ≤ t) :
    analyzeBatch s now tweets oracle =
      ⟨s, tweets.map (fun tw => (tw, skippedAnalysis)), 0, []⟩ ∧
    (∀ now2, t < now2 →
      isQuotaExhausted s now2 =
        (false, { s with quotaExhausted := false, quotaResetTime := none }) ∧
      (tweets ≠ [] → 1 ≤ (analyzeBatch s now2 tweets oracle).netCalls)) := by
  have hguard : isQuotaExhausted s now = (true, s) := by
    simp [isQuotaExhausted, hq, hrt]
    intro h
    omega
  constructor
  · unfold analyzeBatch analyzeBatchGo
    simp only [hen, hguard]
    split
    · rename_i hemp
      simp at hemp
      subst hemp
      simp
    · simp
  · intro now2 h2
    have hclear : isQuotaExhausted s now2 =
        (false, { s with quotaExhausted := false, quotaResetTime := none }) := by
      simp [isQuotaExhausted, hq, hrt, ht0, h2]
    refine ⟨hclear, ?_⟩
    intro hne
    unfold analyzeBatch analyzeBatchGo
    simp only [hen, hclear]
    have hie : tweets.isEmpty = false := by
      cases tweets
      · simp at hne
      · rfl
    simp only [hie, Bool.not_true, Bool.false_or, Bool.or_false,
      Bool.not_false, Bool.false_eq_true, if_false]
    split
    · simp
    · simp
    · split
      · simp
      · split
        · split
          · simp
          · simp
        · simp

/-- Witness for C4: a concrete exhausted state before and after its
reset timestamp. -/
theorem c4_quota_guard_and_reset_witness :
    analyzeBatch ⟨true, 0, 5000, 3, true, some 99999⟩ 5
        ([⟨("t1").data, ("x").data⟩]) (fun _ => AiOutcome.parseFail) =
      ⟨⟨true, 0, 5000, 3, true, some 99999⟩,
       [(⟨("t1").data, ("x").data⟩, skippedAnalysis)], 0, []⟩ ∧
    isQuotaExhausted ⟨true, 0, 5000, 3, true, some 99999⟩ 100000 =
      (false, ⟨true, 0, 5000, 3, false, none⟩) ∧
    1 ≤ (analyzeBatch ⟨true, 0, 5000, 3, true, some 99999⟩ 100000
        ([⟨("t1").data, ("x").data⟩]) (fun _ => AiOutcome.parseFail)).netCalls := by
  have h := c4_quota_guard_and_reset ⟨true, 0, 5000, 3, true, some 99999⟩ 5
    ([⟨("t1").data, ("x").data⟩]) (fun _ => AiOutcome.parseFail) 99999
    rfl rfl rfl (by decide) (by decide)
  have h2 := h.2 100000 (by decide)
  exact ⟨h.1, h2.1, h2.2 (by decide)⟩

/-! ## Claim C5 — `finalizePost` persistence and status transitions -/

/-- Claim C5.  With store writes succeeding, `finalizePost` never
throws; when the analysis flags an issue with a truthy location and the
geocoder succeeds, it upserts the Location row carrying the extracted
location and marks the post `processed_mapped`; on a geocoding miss, or
when the analysis has no issue or no truthy location, it leaves the
Location table untouched and marks the post `processed_no_issue`. -/
theorem c5_finalizePost_spec (env : Env) (st : StoreState) (dbIdx geoIdx : Nat)
    (evs : List StoreEv) (post : Tweet × AiAnalysis)
    (hf1 : env.dbFail dbIdx = false) (hf2 : env.dbFail (dbIdx + 1) = false) :
    (finalizePost env st dbIdx geoIdx evs post).threw = false ∧
    (∀ c, (post.2.isIssue && jsTruthyStr post.2.location) = true →
      (geocode post.2.location (env.geoNet geoIdx)).1 = some c →
      locOfP (finalizePost env st dbIdx geoIdx evs post).store.locations
          post.1.id = some ⟨post.1.id, c, post.2.location⟩ ∧
      statusOfP (finalizePost env st dbIdx geoIdx evs post).store.posts
          post.1.id =
        (statusOfP st.posts post.1.id).map (fun _ => PStatus.processed_mapped) ∧
      (finalizePost env st dbIdx geoIdx evs post).mapped = true) ∧
    ((post.2.isIssue && jsTruthyStr post.2.location) = true →
      (geocode post.2.location (env.geoNet geoIdx)).1 = none →
      (finalizePost env st dbIdx geoIdx evs post).store.locations =
        st.locations ∧
      statusOfP (finalizePost env st dbIdx geoIdx evs post).store.posts
          post.1.id =
        (statusOfP st.posts post.1.id).map
          (fun _ => PStatus.processed_no_issue) ∧
      (finalizePost env st dbIdx geoIdx evs post).mapped = false) ∧
    ((post.2.isIssue && jsTruthyStr post.2.location) = false →
      (finalizePost env st dbIdx geoIdx evs post).store.locations =
        st.locations ∧
      statusOfP (finalizePost env st dbIdx geoIdx evs post).store.posts
          post.1.id =
        (statusOfP st.posts post.1.id).map
          (fun _ => PStatus.processed_no_issue) ∧
      (finalizePost env st dbIdx geoIdx evs post).mapped = false) := by
  refine ⟨?_, ?_, ?_, ?_⟩
  · unfold finalizePost
    dsimp only
    repeat' split
    all_goals simp_all
  · intro c hcond hgeo
    unfold finalizePost
    simp only [hcond, if_true, hgeo, hf1, hf2, Bool.false_eq_true, if_false]
    refine ⟨?_, ?_, trivial⟩
    · exact upsertLoc_locOfP st.locations ⟨post.1.id, c, post.2.location⟩
    · rw [setStatus_statusOfP]
      simp
  · intro hcond hgeo
    unfold finalizePost
    simp only [hcond, if_true, hgeo, hf1, Bool.false_eq_true, if_false]
    refine ⟨trivial, ?_, trivial⟩
    rw [setStatus_statusOfP]
    simp
  · intro hcond
    unfold finalizePost
    simp only [hcond, hf1, Bool.false_eq_true, if_false]
    refine ⟨trivial, ?_, trivial⟩
    rw [setStatus_statusOfP]
    simp

/-- Environment for the C5 witness: no store failures; geocoder resolves
inside the box. -/
def c5Env : Env :=
  ⟨fun _ => false, fun _ => AiOutcome.parseFail,
   fun _ => GeoOutcome.ok
     [⟨("12.9716").data, ("77.5946").data, ("MG Road, Bengaluru").data⟩]⟩

/-- Store for the C5 witness. -/
def c5Store : StoreState :=
  ⟨[⟨("p1").data, ("text").data, 0, PStatus.pending⟩], []⟩

/-- Analyzed post for the C5 witness: an issue at a truthy location. -/
def c5Post : Tweet × AiAnalysis :=
  (⟨("p1").data, ("text").data⟩,
   ⟨true, some (("MG Road, Bangalore").data), some (("pothole").data),
    mkRat 9 10, false⟩)

/-- Witness for C5: the mapped path at a concrete input. -/
theorem c5_finalizePost_spec_witness :
    locOfP (finalizePost c5Env c5Store 0 0 [] c5Post).store.locations
        (("p1").data) =
      some ⟨("p1").data,
        ⟨mkRat 129716 10000, mkRat 775946 10000,
         ("MG Road, Bengaluru").data, geocodedTag⟩,
        some (("MG Road, Bangalore").data)⟩ ∧
    statusOfP (finalizePost c5Env c5Store 0 0 [] c5Post).store.posts
        (("p1").data) = some PStatus.processed_mapped ∧
    (finalizePost c5Env c5Store 0 0 [] c5Post).mapped = true := by
  have h := (c5_finalizePost_spec c5Env c5Store 0 0 [] c5Post rfl rfl).2.1
    ⟨mkRat 129716 10000, mkRat 775946 10000, ("MG Road, Bengaluru").data,
     geocodedTag⟩ (by decide) (by decide)
  obtain ⟨ha, hb, hc⟩ := h
  refine ⟨ha, ?_, hc⟩
  show statusOfP (finalizePost c5Env c5Store 0 0 [] c5Post).store.posts
      c5Post.1.id = some PStatus.processed_mapped
  rw [hb]
  decide
/-! ## Claim C6 — mid-cycle quota abort writes nothing -/

/-- Claim C6.  When the batch analysis comes back with its first result
flagged `skipped` (here: the call died on a daily-quota error), the cycle
aborts with reason `quota_exhausted_mid_cycle`, the store is exactly as
before (every fetched post still pending, no Location rows), the only
store operation was the read, and the in-flight flag is released. -/
theorem c6_mid_cycle_abort (env : Env) (p : ProcState)
    (store : StoreState) (now : Nat) (msg : List Char)
    (hproc : p.isProcessing = false)
    (hq : p.aiState.quotaExhausted = false)
    (hen : p.aiState.enabled = true)
    (hdb : env.dbFail 0 = false)
    (hpend : getPendingPosts store 10 ≠ [])
    (hor : env.aiOutcome 0 = AiOutcome.err msg)
    (hdaily : isDailyQuotaExhausted msg = true) :
    (processQueue env p store now).store = store ∧
    (processQueue env p store now).evs = [StoreEv.read] ∧
    (processQueue env p store now).res =
      mkSkipRes (("quota_exhausted_mid_cycle").data) none ∧
    (processQueue env p store now).pstate.isProcessing = false := by
  obtain ⟨t, ts, hpt⟩ : ∃ t ts, getPendingPosts store 10 = t :: ts := by
    cases h : getPendingPosts store 10 with
    | nil => exact absurd h hpend
    | cons a l => exact ⟨a, l, rfl⟩
  have hquota : isQuotaExhausted p.aiState now = (false, p.aiState) := by
    simp [isQuotaExhausted, hq]
  have hbatch :
      analyzeBatch p.aiState now (t :: ts) env.aiOutcome =
        ⟨{ p.aiState with lastCallTime := now, quotaExhausted := true, quotaResetTime := some (now + 60 * 60 * 1000) },
         (t :: ts).map (fun tw => (tw, skippedAnalysis)), 1, []⟩ := by
    unfold analyzeBatch analyzeBatchGo
    simp only [hen, hquota, hor, hdaily, List.isEmpty_cons, Bool.not_true,
      Bool.or_false, Bool.false_or, Bool.or_self, if_false, if_true]
    simp
  unfold processQueue
  simp only [hproc, hquota, hdb, hpt, hbatch, Bool.false_eq_true, if_false,
    List.isEmpty_cons, firstSkipped, skippedAnalysis, List.map_cons]
  exact ⟨rfl, rfl, rfl, rfl⟩

/-- Store for the C6 witness: one pending post. -/
def c6Store : StoreState :=
  ⟨[⟨("p1").data, ("broken kerb").data, 0, PStatus.pending⟩], []⟩

/-- Oracles for the C6 witness: the first Gemini call throws a
daily-quota error. -/
def c6Env : Env :=
  ⟨fun _ => false,
   fun _ => AiOutcome.err (("429 You have exceeded your current quota").data),
   fun _ => GeoOutcome.err⟩

/-- Witness for C6 at a concrete cycle. -/
theorem c6_mid_cycle_abort_witness :
    (processQueue c6Env ⟨initAiState, false, 0, none⟩ c6Store 5).store =
      c6Store ∧
    (processQueue c6Env ⟨initAiState, false, 0, none⟩ c6Store 5).evs =
      [StoreEv.read] ∧
    (processQueue c6Env ⟨initAiState, false, 0, none⟩ c6Store 5).res =
      mkSkipRes (("quota_exhausted_mid_cycle").data) none ∧
    (processQueue c6Env ⟨initAiState, false, 0, none⟩ c6Store
      5).pstate.isProcessing = false :=
  c6_mid_cycle_abort c6Env ⟨initAiState, false, 0, none⟩ c6Store 5
    (("429 You have exceeded your current quota").data)
    rfl rfl rfl rfl (by decide) rfl (by decide)

/-! ## Claim C7 — transient rate-limit retries with backoff -/

/-- Claim C7.  When every attempt fails with a transient rate-limit
error (a 429/quota message that is not a daily-quota signature), the
batch is retried up to `maxRetries = 3` times; each retry waits the
delay parsed from the error message when present, otherwise the 1-based
attempt count times 10 s; after the retries are exhausted the whole
batch degrades to `isIssue: false` — no exception, four network
attempts, three recorded backoff waits. -/
theorem c7_transient_retries (s : AiState) (now : Nat) (tweets : List Tweet)
    (oracle : Nat → AiOutcome) (msgs : Nat → List Char)
    (hen : s.enabled = true) (hq : s.quotaExhausted = false)
    (hmax : s.maxRetries = 3) (htw : tweets ≠ [])
    (hor : ∀ k, k < 4 → oracle k = AiOutcome.err (msgs k))
    (htr : ∀ k, k < 4 →
      (containsSub (msgs k) (("429").data) ||
       containsSub (msgs k) (("quota").data)) = true)
    (hnd : ∀ k, k < 4 → isDailyQuotaExhausted (msgs k) = false) :
    analyzeBatch s now tweets oracle =
      ⟨{ s with lastCallTime := now },
       tweets.map (fun t => (t, noIssueAnalysis)), 4,
       [(parseRetryDelay (msgs 0)).getD 10000,
        (parseRetryDelay (msgs 1)).getD 20000,
        (parseRetryDelay (msgs 2)).getD 30000]⟩ := by
  obtain ⟨en, lct, mi, mr, qe, qrt⟩ := s
  simp only at hen hq hmax
  subst hen hq hmax
  have h0 := hor 0 (by omega)
  have h1 := hor 1 (by omega)
  have h2 := hor 2 (by omega)
  have h3 := hor 3 (by omega)
  have t0 := htr 0 (by omega)
  have t1 := htr 1 (by omega)
  have t2 := htr 2 (by omega)
  have t3 := htr 3 (by omega)
  have d0 := hnd 0 (by omega)
  have d1 := hnd 1 (by omega)
  have d2 := hnd 2 (by omega)
  have d3 := hnd 3 (by omega)
  have he : tweets.isEmpty = false := by
    cases tweets with
    | nil => exact absurd rfl htw
    | cons a l => rfl
  unfold analyzeBatch
  unfold analyzeBatchGo
  simp only [he, h0, t0, d0, isQuotaExhausted]
  unfold analyzeBatchGo
  simp only [he, h1, t1, d1, isQuotaExhausted]
  unfold analyzeBatchGo
  simp only [he, h2, t2, d2, isQuotaExhausted]
  unfold analyzeBatchGo
  simp only [he, h3, t3, d3, isQuotaExhausted]
  simp

/-- Witness for C7: a 429 message without a parsable delay gives the
10 s / 20 s / 30 s backoff ladder and a degraded batch. -/
theorem c7_transient_retries_witness :
    analyzeBatch ⟨true, 0, 5000, 3, false, none⟩ 7
        ([⟨("t1").data, ("x").data⟩])
        (fun _ => AiOutcome.err (("429 rate limited").data)) =
      ⟨⟨true, 7, 5000, 3, false, none⟩,
       [(⟨("t1").data, ("x").data⟩, noIssueAnalysis)], 4,
       [10000, 20000, 30000]⟩ := by
  have h := c7_transient_retries ⟨true, 0, 5000, 3, false, none⟩ 7
    ([⟨("t1").data, ("x").data⟩])
    (fun _ => AiOutcome.err (("429 rate limited").data))
    (fun _ => ("429 rate limited").data)
    rfl rfl rfl (by decide) (fun k _ => rfl)
    (fun k _ => by
      show (containsSub (("429 rate limited").data) (("429").data) ||
        containsSub (("429 rate limited").data) (("quota").data)) = true
      decide)
    (fun k _ => by
      show isDailyQuotaExhausted (("429 rate limited").data) = false
      decide)
  rw [h]
  decide
/-! ## Claim C8 — single-flight guard -/

/-- Claim C8.  Calling `processQueue` while a cycle is in flight returns
`{skipped: true, reason: 'already_processing'}` immediately: the store
is untouched, no store operation is recorded, and the processor state is
exactly the input state. -/
theorem c8_already_processing_noop (env : Env) (p : ProcState)
    (store : StoreState) (now : Nat) (h : p.isProcessing = true) :
    processQueue env p store now =
      ⟨p, store, [], mkSkipRes (("already_processing").data) none⟩ := by
  simp only [processQueue, h, if_true]

/-- Oracles for the C8 witness (never consulted). -/
def c8Env : Env :=
  ⟨fun _ => false, fun _ => AiOutcome.parseFail, fun _ => GeoOutcome.err⟩

/-- Witness for C8 at a concrete busy processor. -/
theorem c8_already_processing_noop_witness :
    processQueue c8Env ⟨initAiState, true, 2, some 1⟩ ⟨[], []⟩ 5 =
      ⟨⟨initAiState, true, 2, some 1⟩, ⟨[], []⟩, [],
       mkSkipRes (("already_processing").data) none⟩ :=
  c8_already_processing_noop c8Env ⟨initAiState, true, 2, some 1⟩ ⟨[], []⟩ 5 rfl

/-! ## Claim C9 — geocode safety -/

/-- Claim C9.  `geocode` is total (the embedding returns a value on every
input and oracle outcome, mirroring the catch-all `try/catch`): null or
trim-empty input yields null with no network request; a failed request or
unparsable body yields null; and every non-null result carries source
`geocoded` and coordinates inside the Bangalore bounding box — an
out-of-box lookup is a miss. -/
theorem c9_geocode_safety :
    (∀ net, geocode none net = (none, false)) ∧
    (∀ l net, (jsTrim l).isEmpty = true → geocode (some l) net = (none, false)) ∧
    (∀ loc, (geocode loc GeoOutcome.err).1 = none) ∧
    (∀ loc net r, (geocode loc net).1 = some r →
      r.source = geocodedTag ∧ inBangaloreBox r.lat r.lon = true) := by
  refine ⟨?_, ?_, ?_, ?_⟩
  · intro net
    simp [geocode, jsTruthyStr]
  · intro l net h
    simp [geocode, h]
  · intro loc
    unfold geocode
    split
    · rfl
    · rfl
  · intro loc net r h
    unfold geocode at h
    split at h
    · simp at h
    · split at h
      · simp at h
      · simp at h
      · rename_i rows row rest
        split at h
        · rename_i la lo hla hlo
          split at h
          · rename_i hbox
            simp at h
            subst h
            exact ⟨rfl, hbox⟩
          · simp at h
        · simp at h

/-- Witness for C9: all four conjuncts applied at concrete inputs. -/
theorem c9_geocode_safety_witness :
    geocode none GeoOutcome.err = (none, false) ∧
    geocode (some ((" \t ").data)) (GeoOutcome.ok []) = (none, false) ∧
    (geocode (some (("MG Road").data)) GeoOutcome.err).1 = none ∧
    (⟨mkRat 129716 10000, mkRat 775946 10000, ("MG Road, Bengaluru").data,
        geocodedTag⟩ : GeoResult).source = geocodedTag ∧
      inBangaloreBox (mkRat 129716 10000) (mkRat 775946 10000) = true := by
  refine ⟨c9_geocode_safety.1 GeoOutcome.err,
    c9_geocode_safety.2.1 ((" \t ").data) (GeoOutcome.ok []) (by decide),
    c9_geocode_safety.2.2.1 (some (("MG Road").data)),
    c9_geocode_safety.2.2.2 (some (("MG Road").data))
      (GeoOutcome.ok
        [⟨("12.9716").data, ("77.5946").data, ("MG Road, Bengaluru").data⟩])
      ⟨mkRat 129716 10000, mkRat 775946 10000, ("MG Road, Bengaluru").data,
        geocodedTag⟩ (by decide)⟩

/-! ## Claim C10 — the `isProcessing` flag at call exit -/

/-- Environment for the C10 counterexample (never consulted on the
guard path). -/
def c10Env : Env :=
  ⟨fun _ => false, fun _ => AiOutcome.parseFail, fun _ => GeoOutcome.err⟩

/-- Claim C10 (counterexample).  A call that exits through the
already-processing guard returns with `isProcessing` still `true` (the
flag belongs to the in-flight cycle and is not reset by this call), so
not every call terminates with the flag equal to false. -/
theorem c10_busy_call_keeps_flag :
    (processQueue c10Env ⟨initAiState, true, 0, none⟩ ⟨[], []⟩
      5).pstate.isProcessing = true := by
  decide

/-- Claim C10 (amended).  Every call that actually enters a cycle — that
is, every call made while `isProcessing` is false — terminates with
`isProcessing` false again, on every path: both guards, the empty-queue
exit, the mid-cycle quota abort, a store exception anywhere in the
cycle, and normal completion. -/
theorem c10_flag_reset_when_entered_idle (env : Env) (p : ProcState)
    (store : StoreState) (now : Nat) (h : p.isProcessing = false) :
    (processQueue env p store now).pstate.isProcessing = false := by
  simp only [processQueue, h]
  split
  · simp [h]
  · split
    · rfl
    · split
      · rfl
      · split
        · rfl
        · split
          · rfl
          · split
            · rfl
            · rfl

/-- Witness for C10: a concrete idle call (whose cycle throws on the
read) ends with the flag cleared. -/
theorem c10_flag_reset_witness :
    (processQueue ⟨fun _ => true, fun _ => AiOutcome.parseFail,
        fun _ => GeoOutcome.err⟩
      ⟨initAiState, false, 0, none⟩ ⟨[], []⟩ 5).pstate.isProcessing = false :=
  c10_flag_reset_when_entered_idle
    ⟨fun _ => true, fun _ => AiOutcome.parseFail, fun _ => GeoOutcome.err⟩
    ⟨initAiState, false, 0, none⟩ ⟨[], []⟩ 5 rfl

end FootpathMap
